import Mathlib

/-!
# LittleJS platformer objects and debug overlay

A shallow embedding of `examples/platformer/gameObjects.js` (health, damage and
kill logic of `GameObject`, `Crate`, `Enemy` and `Bullet`) and of the overlay block of
`engine/engineDebug.js` (`debugRender`).

JavaScript numbers are finite doubles, represented by the rationals they denote; the
subtractions of `GameObject.damage` are rounded by `roundDouble`, and numeric literals
are written as the decimal fractions of the source.  Object references are handles
(`Nat`).  Calls to engine services whose code is not part of the sources
(`playSound`, `makeDebris`, `destroyTile`, `new ParticleEmitter`) are recorded, in call
order, in a ghost trace; entries of the `kill` and `destroy` methods are recorded in the
same trace.

For `debugRender` the vectors are objects in a store and are passed by reference, so
that a write to a component of a vector is seen by every holder of the reference; the
engine calls are recorded in call order, and what they write to the store is a
parameter.
-/

namespace LittleJS

/-! ## Engine data the sources rely on -/

/-- Rounding to the nearest integer, ties to the even one. -/
def roundHalfEven (q : ℚ) : ℤ :=
  if q - ⌊q⌋ < 1 / 2 then ⌊q⌋
  else if 1 / 2 < q - ⌊q⌋ then ⌊q⌋ + 1
  else if ⌊q⌋ % 2 = 0 then ⌊q⌋ else ⌊q⌋ + 1

/-- The rounding of JavaScript arithmetic: the double nearest to the exact result `q`,
with 53 significant bits and ties to even.  The exponent range is left unbounded, which
agrees with IEEE 754 whenever the exact result is the difference of two finite doubles
and does not overflow, as in `GameObject.damage` for a positive health and a
non-negative damage. -/
def roundDouble (q : ℚ) : ℚ :=
  if q = 0 then 0
  else (roundHalfEven (q / 2 ^ (Int.log 2 |q| - 52)) : ℚ) * 2 ^ (Int.log 2 |q| - 52)

/-- Modelled from the spec: the engine's `Vec2` class is absent from the sources; the
spec's data model gives positions, velocities and sizes as 2D values. -/
structure Vec2 where
  x : ℚ
  y : ℚ
deriving DecidableEq

/-- Modelled from the spec: the engine's `Color` class is absent from the sources; the
spec describes a 4-channel color. -/
structure Color where
  r : ℚ
  g : ℚ
  b : ℚ
  a : ℚ
deriving DecidableEq

/-- Modelled from the spec: `Vec2.copy`, a fresh vector with the same components. -/
def Vec2.copy (v : Vec2) : Vec2 := ⟨v.x, v.y⟩

/-- Modelled from the spec: `Vec2.add`, componentwise sum returned as a fresh vector. -/
def Vec2.add (v u : Vec2) : Vec2 := ⟨v.x + u.x, v.y + u.y⟩

/-- Modelled from the spec: `Vec2.subtract`, componentwise difference returned as a
fresh vector. -/
def Vec2.subtract (v u : Vec2) : Vec2 := ⟨v.x - u.x, v.y - u.y⟩

/-- Modelled from the spec: `Vec2.scale`, both components multiplied by a scalar,
returned as a fresh vector. -/
def Vec2.scale (v : Vec2) (s : ℚ) : Vec2 := ⟨v.x * s, v.y * s⟩

/-- Modelled from the spec: the engine's `Timer` class is absent from the sources; the
spec measures timers in elapsed simulated seconds.  An unset timer holds no time. -/
structure Timer where
  time : Option ℚ
deriving DecidableEq

/-- Modelled from the spec: `Timer.set(timeLeft)` at simulation clock `now`. -/
def Timer.set (_t : Timer) (now timeLeft : ℚ) : Timer := ⟨some (now + timeLeft)⟩

/-- Modelled from the spec: `Timer.isSet()`. -/
def Timer.isSet (t : Timer) : Bool := t.time.isSome

/-- Modelled from the spec: `Timer.get()`, the simulated seconds elapsed since the
timer was set (0 when unset). -/
def Timer.get (t : Timer) (now : ℚ) : ℚ :=
  match t.time with
  | some s => now - s
  | none => 0

/-- The sound effects named in `gameObjects.js`. -/
inductive Sound where
  | sound_destroyObject
  | sound_killEnemy
  | sound_jump
  | sound_shoot
  | sound_grenade
deriving DecidableEq

/-- Ghost trace entries: method entries of `kill` and `destroy`, and calls to services
whose code is absent from the sources. -/
inductive Event where
  | kill (id : Nat)
  | destroy (id : Nat)
  | playSound (sound : Sound) (pos : Vec2)
  | makeDebris (pos : Vec2) (color : Color) (amount : Option ℚ)
  | destroyTile (pos : Vec2)
  | particleEmitter (pos : Vec2)
  | assertFailed
deriving DecidableEq

/-- The globals read and written by `gameObjects.js`, with the ghost trace. -/
structure World where
  time : ℚ
  warmup : Bool
  score : Int
  trace : List Event
deriving DecidableEq

/-- Append one entry to the ghost trace. -/
def World.log (w : World) (e : Event) : World := { w with trace := w.trace ++ [e] }

/-- `ASSERT` of `engineDebug.js` with `enableAsserts = 1`: `console.assert` reports a
failed assertion and never interrupts the caller. -/
def ASSERT (c : Bool) (w : World) : World := if c then w else w.log Event.assertFailed

/-- The class of an object, used to dispatch the overridable `kill` method. -/
inductive Kind where
  | engineObject
  | gameObject
  | crate
  | enemy
  | grenade
deriving DecidableEq

/-- What `GameObject.damage` and `destroy` touch of a child object. -/
structure Child where
  damageTimer : Option Timer
  destroyed : Bool
deriving DecidableEq

/-- What `debugRender` reads through the `parent` reference of an object. -/
structure Parent where
  id : Nat
  pos : Vec2
deriving DecidableEq

/-- An engine object: the properties read or written by the modelled code.
`destroyed` is the engine's lifecycle flag; `isDestroyed` is the property of that name
read by `Crate.kill` and `Enemy.kill` (false when undefined). -/
structure EngineObject where
  id : Nat
  kind : Kind
  pos : Vec2
  size : Vec2
  velocity : Vec2
  angle : ℚ
  color : Color
  additiveColor : Color
  parent : Option Parent
  children : List Child
  collideTiles : Bool
  collideSolidObjects : Bool
  isSolid : Bool
  canvas : Bool
  destroyed : Bool
  isDestroyed : Bool
  isGameObject : Bool
  health : ℚ
  damageTimer : Timer
deriving DecidableEq

/-- Modelled from the spec: `destroy` on a child, which marks it destroyed. -/
def Child.destroy (c : Child) : Child := { c with destroyed := true }

/-- Modelled from the spec: `EngineObject.destroy` is absent from the sources.  The spec
makes it idempotent: it marks the object and its children as destroyed, and destroying an
already-destroyed object is a no-op.  The call itself is recorded in the trace. -/
def EngineObject.destroy (o : EngineObject) (w : World) : EngineObject × World :=
  let w := w.log (Event.destroy o.id)
  if o.destroyed then (o, w)
  else ({ o with destroyed := true, children := o.children.map Child.destroy }, w)

/-! ## gameObjects.js -/

/-- `GameObject.isDead`: `!this.health`. -/
def GameObject.isDead (o : EngineObject) : Bool := o.health == 0

/-- `GameObject.kill`: the base method calls `destroy`. -/
def GameObject.kill (o : EngineObject) (w : World) (_damagingObject : Option Nat) :
    EngineObject × World :=
  let w := w.log (Event.kill o.id)
  o.destroy w

/-- `Crate.kill`. -/
def Crate.kill (o : EngineObject) (w : World) : EngineObject × World :=
  let w := w.log (Event.kill o.id)
  if o.isDestroyed then (o, w)
  else
    let w := w.log (Event.playSound Sound.sound_destroyObject o.pos)
    let w := w.log (Event.makeDebris o.pos o.color none)
    o.destroy w

/-- `Enemy.kill`. -/
def Enemy.kill (o : EngineObject) (w : World) : EngineObject × World :=
  let w := w.log (Event.kill o.id)
  if o.isDestroyed then (o, w)
  else
    let w := { w with score := w.score + 1 }
    let w := w.log (Event.playSound Sound.sound_killEnemy o.pos)
    let w := w.log (Event.makeDebris o.pos o.color (some 300))
    o.destroy w

/-- The call `this.kill(damagingObject)`, dispatched on the class of the object. -/
def EngineObject.kill (o : EngineObject) (w : World) (damagingObject : Option Nat) :
    EngineObject × World :=
  match o.kind with
  | Kind.crate => Crate.kill o w
  | Kind.enemy => Enemy.kill o w
  | _ => GameObject.kill o w damagingObject

/-- `GameObject.damage`: returns the amount damaged with the new object and world.  The
two subtractions are rounded to doubles. -/
def GameObject.damage (o : EngineObject) (w : World) (damage : ℚ)
    (damagingObject : Option Nat) : ℚ × EngineObject × World :=
  let w := ASSERT (decide (damage ≥ 0)) w
  if GameObject.isDead o then (0, o, w)
  else
    -- set damage timer
    let o : EngineObject := { o with
      damageTimer := o.damageTimer.set w.time 0
      children := o.children.map fun (child : Child) =>
        { child with damageTimer := child.damageTimer.map fun t => t.set w.time 0 } }
    -- apply damage and kill if necessary
    let newHealth := max (roundDouble (o.health - damage)) 0
    let (o, w) := if newHealth == 0 then o.kill w damagingObject else (o, w)
    -- set new health and return amount damaged
    (roundDouble (o.health - newHealth), { o with health := newHealth }, w)

/-- The block `flash white when damaged` of `GameObject.update`, which assigns
`additiveColor`. -/
def GameObject.flash (percent : ℚ → ℚ → ℚ → ℚ) (o : EngineObject) (w : World) :
    EngineObject :=
  if !GameObject.isDead o && o.damageTimer.isSet then
    let a := (1 / 2) * percent (o.damageTimer.get w.time) 0 (15 / 100)
    { o with additiveColor := ⟨a, a, a, 0⟩ }
  else { o with additiveColor := ⟨0, 0, 0, 0⟩ }

/-- `GameObject.update`.  The base `EngineObject.update` and the utility `percent` are
absent from the sources and are taken as parameters. -/
def GameObject.update (superUpdate : EngineObject → World → EngineObject × World)
    (percent : ℚ → ℚ → ℚ → ℚ) (o : EngineObject) (w : World) : EngineObject × World :=
  let (o, w) := superUpdate o w
  -- flash white when damaged
  let o : EngineObject := GameObject.flash percent o w
  -- kill if below level
  if !GameObject.isDead o && decide (o.pos.y < -9) then
    if w.warmup then o.destroy w else o.kill w none
  else (o, w)

/-- A bullet: an engine object with the fields set by the `Bullet` constructor. -/
structure Bullet extends EngineObject where
  attacker : Option Nat
  damage : ℚ
  range : ℚ
deriving DecidableEq

/-- `Bullet.kill`.  The spark emitter is recorded by its position. -/
def Bullet.kill (b : Bullet) (w : World) : Bullet × World :=
  let w := w.log (Event.kill b.id)
  if b.destroyed then (b, w)
  else
    let (e, w) := b.toEngineObject.destroy w
    let b := { b with toEngineObject := e }
    -- spark effects
    (b, w.log (Event.particleEmitter b.pos))

/-- `Bullet.collideWithObject`.  `EngineObject.applyForce` is absent from the sources
and is taken as a parameter. -/
def Bullet.collideWithObject (applyForce : EngineObject → Vec2 → EngineObject)
    (b : Bullet) (o : EngineObject) (w : World) : Nat × Bullet × EngineObject × World :=
  let (o, w) :=
    if o.isGameObject && some o.id != b.attacker then
      let r := GameObject.damage o w b.damage (some b.id)
      (applyForce r.2.1 (b.velocity.scale (1 / 10)), r.2.2)
    else (o, w)
  let (b, w) := b.kill w
  (1, b, o, w)

/-- `Bullet.collideWithTile`. -/
def Bullet.collideWithTile (b : Bullet) (data : Int) (pos : Vec2) (w : World) :
    Nat × Bullet × World :=
  if data ≤ 0 then (0, b, w)
  else
    let w := w.log (Event.destroyTile pos)
    let (b, w) := b.kill w
    (1, b, w)

/-! ## engineDebug.js -/

/-- A rendering context, by handle. -/
abbrev Context := Nat

/-- A debug primitive as pushed by `debugRect` (vector size) or `debugCircle` (number
size). -/
structure DebugPrimitive where
  pos : Vec2
  size : Vec2 ⊕ ℚ
  color : String
  time : Timer
  angle : ℚ
  fill : Bool
deriving DecidableEq

/-- The lines of text drawn next to the mouse by the pick display, by their payload. -/
inductive PickText where
  | pos (pos : Vec2) (angle : ℚ)
  | vel (velocity : Vec2)
  | size (size : Vec2)
  | collision (data : Int)
deriving DecidableEq

/-- A reference to a `Vec2` object. -/
abbrev Ref := Nat

/-- The `Vec2` objects alive, by reference: creating a vector appends a cell, assigning to
a component of a vector overwrites its cell. -/
structure Heap where
  cells : List Vec2
deriving DecidableEq

/-- The components of the vector behind a reference. -/
def Heap.read (h : Heap) (r : Ref) : Vec2 := h.cells.getD r ⟨0, 0⟩

/-- What `debugRender` reads through the `parent` reference of an object: the parent's
`pos`, by reference. -/
structure StoredParent where
  id : Nat
  pos : Ref
deriving DecidableEq

/-- An engine object as `debugRender` finds it in `engineObjects`: the properties of
`EngineObject`, with `pos`, `size` and `velocity` held by reference. -/
structure StoredObject where
  id : Nat
  kind : Kind
  pos : Ref
  size : Ref
  velocity : Ref
  angle : ℚ
  color : Color
  additiveColor : Color
  parent : Option StoredParent
  children : List Child
  collideTiles : Bool
  collideSolidObjects : Bool
  isSolid : Bool
  canvas : Bool
  destroyed : Bool
  isDestroyed : Bool
  isGameObject : Bool
  health : ℚ
  damageTimer : Timer
deriving DecidableEq

/-- The values of all properties of a stored object in a given store. -/
def StoredObject.load (h : Heap) (o : StoredObject) : EngineObject :=
  { id := o.id, kind := o.kind, pos := h.read o.pos, size := h.read o.size,
    velocity := h.read o.velocity, angle := o.angle, color := o.color,
    additiveColor := o.additiveColor,
    parent := o.parent.map fun p => ⟨p.id, h.read p.pos⟩,
    children := o.children, collideTiles := o.collideTiles,
    collideSolidObjects := o.collideSolidObjects, isSolid := o.isSolid, canvas := o.canvas,
    destroyed := o.destroyed, isDestroyed := o.isDestroyed, isGameObject := o.isGameObject,
    health := o.health, damageTimer := o.damageTimer }

/-- Calls to engine and browser functions whose code is absent from the sources, with the
vectors passed by reference.  A drawing call records the value of `mainContext`, the
context it draws to, at the time of the call. -/
inductive EngineCall where
  | glCopyToContext (context : Context)
  | saveCanvas
  | drawRect (mainContext : Context) (pos size : Ref) (color : Color)
  | drawLine (mainContext : Context) (posA posB : Ref) (thickness : ℚ) (color : Color)
  | drawText (mainContext : Context) (text : PickText) (pos : Ref)
  | tileCollisionRaycast (posStart posEnd : Ref)
  | getTileCollisionData (pos : Ref)
  | primitive (context : Context) (r : DebugPrimitive)
  | legend (context : Context) (debugOverlay : Bool)
deriving DecidableEq

/-- The globals read and written by `debugRender`, the store of vectors, and the list of
engine calls made so far. -/
structure DebugState where
  heap : Heap
  engineObjects : List StoredObject
  mousePos : Ref
  mainContext : Context
  overlayContext : Context
  time : ℚ
  debugOverlay : Bool
  debugTakeScreenshot : Bool
  debugGamepads : Bool
  gamepadsEnable : Bool
  debugPrimitives : List DebugPrimitive
  calls : List EngineCall
deriving DecidableEq

/-- The engine and browser functions used by `debugRender` whose code is absent from the
sources.  `effect` is what a call writes to the vectors it can reach.  `distanceSquared`
ranges over the numbers extended by `Infinity` (`⊤`).  `navigatorGamepads` is `none` when
`navigator.getGamepads` is missing and otherwise holds the primitives that the gamepad
display pushes for the gamepads polled. -/
structure DebugEnv where
  effect : EngineCall → Heap → Heap
  distanceSquared : Vec2 → Vec2 → WithTop ℚ
  tileCollisionRaycast : Vec2 → Vec2 → Option Vec2
  getTileCollisionData : Vec2 → Int
  int : Vec2 → Vec2
  navigatorGamepads : Option (List DebugPrimitive)

/-- Make one engine call: it is recorded, and the store becomes what the call leaves. -/
def DebugState.call (env : DebugEnv) (st : DebugState) (c : EngineCall) : DebugState :=
  { st with heap := env.effect c st.heap, calls := st.calls ++ [c] }

/-- Create a vector (`vec2(x, y)`, or the result of a `Vec2` method that returns a new
vector): its reference, and the state with the new cell. -/
def DebugState.newVec2 (st : DebugState) (v : Vec2) : Ref × DebugState :=
  (st.heap.cells.length, { st with heap := ⟨st.heap.cells ++ [v]⟩ })

/-- Assign to the components of the vector behind `r`. -/
def DebugState.assign (st : DebugState) (r : Ref) (v : Vec2) : DebugState :=
  { st with heap := ⟨st.heap.cells.set r v⟩ }

/-- The body of the first loop of the overlay block of `debugRender`: showing one
object. -/
def debugRender.showObject (env : DebugEnv) (st : DebugState) (o : StoredObject) :
    DebugState :=
  if o.canvas then st  -- skip tile layers
  else
    let (size, st) := st.newVec2 (st.heap.read o.size).copy
    let st := st.assign size { st.heap.read size with x := max (st.heap.read size).x (2 / 10) }
    let st := st.assign size { st.heap.read size with y := max (st.heap.read size).y (2 / 10) }
    let color : Color :=
      ⟨if o.collideTiles then 1 else 0,
       if o.collideSolidObjects then 1 else 0,
       if o.isSolid then 1 else 0,
       if o.parent.isSome then 2 / 10 else 5 / 10⟩
    -- show object info
    let st := st.call env (EngineCall.drawRect st.mainContext o.pos size color)
    let (scaled, st) := st.newVec2 ((st.heap.read size).scale (8 / 10))
    let st := st.call env (EngineCall.drawRect st.mainContext o.pos scaled
      (if o.parent.isSome then ⟨1, 1, 1, 5 / 10⟩ else ⟨0, 0, 0, 8 / 10⟩))
    match o.parent with
    | some parent =>
      st.call env (EngineCall.drawLine st.mainContext o.pos parent.pos (1 / 10)
        ⟨0, 0, 1, 5 / 10⟩)
    | none => st

/-- One iteration of the mouse pick loop on `(bestDistance, bestObject)`. -/
def debugRender.pickStep (distanceSquared : Vec2 → Vec2 → WithTop ℚ) (mousePos : Vec2)
    (best : WithTop ℚ × Option EngineObject) (o : EngineObject) :
    WithTop ℚ × Option EngineObject :=
  let distance := distanceSquared mousePos o.pos
  if distance < best.1 then (distance, some o) else best

/-- The mouse pick loop of `debugRender` on the values of the objects: `bestObject` after
the loop, starting from `bestDistance = Infinity` and `bestObject` undefined. -/
def debugRender.mousePick (distanceSquared : Vec2 → Vec2 → WithTop ℚ) (mousePos : Vec2)
    (engineObjects : List EngineObject) : Option EngineObject :=
  (engineObjects.foldl (debugRender.pickStep distanceSquared mousePos) (⊤, none)).2

/-- One iteration of the mouse pick loop on `(bestDistance, bestObject)`, on the objects
as stored. -/
def debugRender.pickStepStored (env : DebugEnv) (heap : Heap) (mousePos : Ref)
    (best : WithTop ℚ × Option StoredObject) (o : StoredObject) :
    WithTop ℚ × Option StoredObject :=
  let distance := env.distanceSquared (heap.read mousePos) (heap.read o.pos)
  if distance < best.1 then (distance, some o) else best

/-- The mouse pick loop of `debugRender` on the objects as stored; on their values it is
`debugRender.mousePick`. -/
def debugRender.mousePickStored (env : DebugEnv) (heap : Heap) (mousePos : Ref)
    (engineObjects : List StoredObject) : Option StoredObject :=
  (engineObjects.foldl (debugRender.pickStepStored env heap mousePos) (⊤, none)).2

/-- The expression `p.int().add(vec2(.5))` followed by `vec2(1)`: the references of the
sum and of the unit vector. -/
def debugRender.cellOf (env : DebugEnv) (st : DebugState) (p : Ref) :
    Ref × Ref × DebugState :=
  let (whole, st) := st.newVec2 (env.int (st.heap.read p))
  let (half, st) := st.newVec2 ⟨5 / 10, 5 / 10⟩
  let (cell, st) := st.newVec2 ((st.heap.read whole).add (st.heap.read half))
  let (one, st) := st.newVec2 ⟨1, 1⟩
  (cell, one, st)

/-- The block `if (bestObject)` of `debugRender`, which draws the pick on the overlay
context. -/
def debugRender.showPick (env : DebugEnv) (st : DebugState)
    (bestObject : Option StoredObject) : DebugState :=
  match bestObject with
  | none => st
  | some bestObject =>
    let saveContext := st.mainContext
    let st := { st with mainContext := st.overlayContext }
    let hit := env.tileCollisionRaycast (st.heap.read bestObject.pos)
      (st.heap.read st.mousePos)
    let st := st.call env (EngineCall.tileCollisionRaycast bestObject.pos st.mousePos)
    let st := match hit with
      | some hit =>
        let (raycastHitPos, st) := st.newVec2 hit
        let (cell, one, st) := debugRender.cellOf env st raycastHitPos
        st.call env (EngineCall.drawRect st.mainContext cell one ⟨0, 1, 1, 3 / 10⟩)
      | none => st
    let (cell, one, st) := debugRender.cellOf env st st.mousePos
    let st := st.call env (EngineCall.drawRect st.mainContext cell one ⟨0, 0, 1, 5 / 10⟩)
    let st := st.call env (EngineCall.drawLine st.mainContext st.mousePos bestObject.pos
      (1 / 10) (if hit.isNone then ⟨0, 1, 0, 5 / 10⟩ else ⟨1, 0, 0, 5 / 10⟩))
    let (pos, st) := st.newVec2 (st.heap.read st.mousePos).copy
    let (height, st) := st.newVec2 ⟨0, 5 / 10⟩
    let text := PickText.pos (st.heap.read bestObject.pos) bestObject.angle
    let (pos, st) := st.newVec2 ((st.heap.read pos).add (st.heap.read height))
    let st := st.call env (EngineCall.drawText st.mainContext text pos)
    let text := PickText.vel (st.heap.read bestObject.velocity)
    let (pos, st) := st.newVec2 ((st.heap.read pos).add (st.heap.read height))
    let st := st.call env (EngineCall.drawText st.mainContext text pos)
    let text := PickText.size (st.heap.read bestObject.size)
    let (pos, st) := st.newVec2 ((st.heap.read pos).add (st.heap.read height))
    let st := st.call env (EngineCall.drawText st.mainContext text pos)
    let text := PickText.collision (env.getTileCollisionData (st.heap.read st.mousePos))
    let st := st.call env (EngineCall.getTileCollisionData st.mousePos)
    let (pos, st) := st.newVec2 ((st.heap.read st.mousePos).subtract (st.heap.read height))
    let st := st.call env (EngineCall.drawText st.mainContext text pos)
    { st with mainContext := saveContext }

/-- The block `if (debugOverlay)` of `debugRender`. -/
def debugRender.overlay (env : DebugEnv) (st : DebugState) : DebugState :=
  let st := st.engineObjects.foldl (debugRender.showObject env) st
  -- mouse pick
  let bestObject := debugRender.mousePickStored env st.heap st.mousePos st.engineObjects
  let st := debugRender.showPick env st bestObject
  st.call env (EngineCall.glCopyToContext st.mainContext)

/-- `debugRender`.  The gamepad display, the rendering of the debug primitives and the
text legend, which touch only `debugPrimitives` and the overlay canvas, are recorded by
one entry for each primitive or text block. -/
def debugRender (env : DebugEnv) (st : DebugState) : DebugState :=
  let st := st.call env (EngineCall.glCopyToContext st.mainContext)
  let st :=
    if st.debugTakeScreenshot then
      { st.call env EngineCall.saveCanvas with debugTakeScreenshot := false }
    else st
  let st :=
    match st.debugGamepads && st.gamepadsEnable, env.navigatorGamepads with
    | true, some pushed => { st with debugPrimitives := st.debugPrimitives ++ pushed }
    | _, _ => st
  let st := if st.debugOverlay then debugRender.overlay env st else st
  -- render debug rects
  let st := st.debugPrimitives.foldl
    (fun st r => st.call env (EngineCall.primitive st.overlayContext r)) st
  let st := st.call env (EngineCall.legend st.overlayContext st.debugOverlay)
  { st with debugPrimitives :=
      st.debugPrimitives.filter fun r => decide (r.time.get st.time < 0) }

/-! ## Sample objects -/

/-- The origin. -/
def zeroVec : Vec2 := ⟨0, 0⟩

/-- A color used by the sample objects. -/
def white : Color := ⟨1, 1, 1, 1⟩

/-- A world at clock 0 with an empty trace, outside warmup. -/
def world0 : World := { time := 0, warmup := false, score := 0, trace := [] }

/-- A freshly constructed crate (health 5, solid) with handle 1 and no children. -/
def crate5 : EngineObject :=
  { id := 1, kind := Kind.crate, pos := zeroVec, size := ⟨1, 1⟩, velocity := zeroVec,
    angle := 0, color := white, additiveColor := ⟨0, 0, 0, 0⟩, parent := none,
    children := [], collideTiles := true, collideSolidObjects := true, isSolid := true,
    canvas := false, destroyed := false, isDestroyed := false, isGameObject := true,
    health := 5, damageTimer := ⟨none⟩ }

/-- A freshly constructed enemy (health 5) with handle 2. -/
def enemy5 : EngineObject :=
  { crate5 with id := 2, kind := Kind.enemy, size := ⟨9 / 10, 9 / 10⟩, isSolid := false }

/-! ## Trace counters, repeated calls and further samples -/

/-- A crate whose health has reached 0, with a child carrying an unset damage timer. -/
def deadCrate : EngineObject :=
  { crate5 with health := 0, children := [⟨some ⟨none⟩, false⟩] }

/-- The number of `kill` entries of the object with handle `id` in the trace. -/
def World.killCalls (w : World) (id : Nat) : Nat := w.trace.count (Event.kill id)

/-- The number of `destroy` entries of the object with handle `id` in the trace. -/
def World.destroyCalls (w : World) (id : Nat) : Nat := w.trace.count (Event.destroy id)

/-- Whether a trace entry is the creation of a particle emitter. -/
def Event.isParticleEmitter : Event → Bool
  | Event.particleEmitter _ => true
  | _ => false

/-- The number of particle emitters created according to the trace. -/
def World.emitters (w : World) : Nat := w.trace.countP Event.isParticleEmitter

/-- `kill` called `n` times in a row on one bullet. -/
def Bullet.killTimes : Nat → Bullet → World → Bullet × World
  | 0, b, w => (b, w)
  | n + 1, b, w => Bullet.killTimes n (b.kill w).1 (b.kill w).2

/-- A bullet in flight with handle 7, fired by the object with handle 9. -/
def bullet0 : Bullet :=
  { id := 7, kind := Kind.engineObject, pos := ⟨3, 4⟩, size := zeroVec,
    velocity := ⟨1 / 2, 0⟩, angle := 0, color := ⟨1, 1, 0, 1⟩,
    additiveColor := ⟨0, 0, 0, 0⟩, parent := none, children := [],
    collideTiles := true, collideSolidObjects := true, isSolid := false, canvas := false,
    destroyed := false, isDestroyed := false, isGameObject := false, health := 0,
    damageTimer := ⟨none⟩, attacker := some 9, damage := 1, range := 20 }

/-- A stand-in for the base update: the object moves by its velocity. -/
def moveByVelocity (o : EngineObject) (w : World) : EngineObject × World :=
  ({ o with pos := o.pos.add o.velocity }, w)

/-- A stand-in for the utility `percent`: the fraction of `v` between `a` and `b`,
clamped to the unit interval. -/
def percentClamped (v a b : ℚ) : ℚ :=
  if b - a = 0 then 0 else max 0 (min 1 ((v - a) / (b - a)))

/-- The sample crate falling from height -9. -/
def fallingCrate : EngineObject :=
  { crate5 with pos := ⟨0, -9⟩, velocity := ⟨0, -1⟩ }

/-- The invariant of the mouse pick loop after the objects of `l` have been visited. -/
def PickInv (d : EngineObject → WithTop ℚ) (l : List EngineObject)
    (best : WithTop ℚ × Option EngineObject) : Prop :=
  (best.2 = none → best.1 = ⊤ ∧ ∀ o ∈ l, ¬ d o < ⊤) ∧
  (∀ b, best.2 = some b → best.1 = d b ∧ d b < ⊤ ∧
    ∃ pre post, l = pre ++ b :: post ∧ (∀ o ∈ pre, d b < d o) ∧ (∀ o ∈ post, d b ≤ d o))

/-- A stand-in for `applyForce` on an object of unit mass: the force is added to the
velocity. -/
def pushBy (o : EngineObject) (force : Vec2) : EngineObject :=
  { o with velocity := o.velocity.add force }

/-- A stand-in for `Vec2.distanceSquared`: the squared Euclidean distance, a finite
number. -/
def squaredDistance (v u : Vec2) : WithTop ℚ :=
  (((v.x - u.x) ^ 2 + (v.y - u.y) ^ 2 : ℚ) : WithTop ℚ)

/-- The sample crate moved to a given place. -/
def crateAt (id : Nat) (pos : Vec2) : EngineObject := { crate5 with id := id, pos := pos }

/-- What `debugRender` may change of a state outside the drawing: nothing of the objects,
the mouse and the contexts, and the store only by new cells after the existing ones. -/
def DebugState.Frame (st st' : DebugState) : Prop :=
  st'.engineObjects = st.engineObjects ∧ st'.mousePos = st.mousePos ∧
  st'.mainContext = st.mainContext ∧ st'.overlayContext = st.overlayContext ∧
  st.heap.cells <+: st'.heap.cells

/-- The references held by a stored object point into the store. -/
def StoredObject.allocated (h : Heap) (o : StoredObject) : Prop :=
  o.pos < h.cells.length ∧ o.size < h.cells.length ∧ o.velocity < h.cells.length ∧
  ∀ p ∈ o.parent, p.pos < h.cells.length

/-- A stand-in for `Vec2.int`: both components truncated toward zero. -/
def truncate (v : Vec2) : Vec2 := ⟨(v.x.num.tdiv v.x.den : Int), (v.y.num.tdiv v.y.den : Int)⟩

/-- Stand-ins for the engine functions of `debugRender`: calls that write to no vector,
an empty tile map (no raycast hit, collision code 0 everywhere) and no gamepad support. -/
def sampleEnv : DebugEnv :=
  { effect := fun _ h => h, distanceSquared := squaredDistance,
    tileCollisionRaycast := fun _ _ => none, getTileCollisionData := fun _ => 0,
    int := truncate, navigatorGamepads := none }

/-- The sample crate as stored, with `pos`, `size` and `velocity` in cells 0, 1 and 2. -/
def storedCrate : StoredObject :=
  { id := 1, kind := Kind.crate, pos := 0, size := 1, velocity := 2, angle := 0,
    color := white, additiveColor := ⟨0, 0, 0, 0⟩, parent := none, children := [],
    collideTiles := true, collideSolidObjects := true, isSolid := true, canvas := false,
    destroyed := false, isDestroyed := false, isGameObject := true, health := 5,
    damageTimer := ⟨none⟩ }

/-- A point-sized child of the stored crate, with `pos`, `size` and `velocity` in cells 3,
4 and 5. -/
def pointChild : StoredObject :=
  { storedCrate with id := 2, pos := 3, size := 4, velocity := 5, parent := some ⟨1, 0⟩ }

/-- A debug state with the overlay on: the crate at (3,0) with size (1,1), its child at
(1,0) with size (0,0), the mouse (cell 6) at (.5,.5), main context 0 and overlay
context 1. -/
def sampleState : DebugState :=
  { heap := ⟨[⟨3, 0⟩, ⟨1, 1⟩, ⟨0, 0⟩, ⟨1, 0⟩, ⟨0, 0⟩, ⟨0, 0⟩, ⟨1 / 2, 1 / 2⟩]⟩,
    engineObjects := [storedCrate, pointChild],
    mousePos := 6, mainContext := 0, overlayContext := 1, time := 0,
    debugOverlay := true, debugTakeScreenshot := false, debugGamepads := false,
    gamepadsEnable := true, debugPrimitives := [], calls := [] }

/-! ## Rounding to doubles -/

theorem roundHalfEven_pos {q : ℚ} (h : 1 ≤ q) : 1 ≤ roundHalfEven q := by
  have hf : (1 : ℤ) ≤ ⌊q⌋ := Int.le_floor.mpr (by exact_mod_cast h)
  unfold roundHalfEven
  split_ifs <;> omega

theorem roundHalfEven_neg {q : ℚ} (h : q ≤ -1) : roundHalfEven q ≤ -1 := by
  have hf : ⌊q⌋ ≤ (-1 : ℤ) := by
    have := Int.floor_le q
    have h2 : ((⌊q⌋ : ℤ) : ℚ) ≤ ((-1 : ℤ) : ℚ) := by push_cast; linarith
    exact_mod_cast h2
  unfold roundHalfEven
  split_ifs with h1 h2 h3
  · exact hf
  · have : ((⌊q⌋ : ℤ) : ℚ) < -1 := by linarith
    have : ⌊q⌋ < (-1 : ℤ) := by exact_mod_cast this
    omega
  · exact hf
  · have : ((⌊q⌋ : ℤ) : ℚ) < -1 := by linarith
    have : ⌊q⌋ < (-1 : ℤ) := by exact_mod_cast this
    omega

theorem ulp_le_abs {q : ℚ} (h : q ≠ 0) : (2 : ℚ) ^ (Int.log 2 |q| - 52) ≤ |q| := by
  have hq : 0 < |q| := abs_pos.mpr h
  have h1 : ((2 : ℕ) : ℚ) ^ Int.log 2 |q| ≤ |q| := Int.zpow_log_le_self (by norm_num) hq
  have h2 : (2 : ℚ) ^ (Int.log 2 |q| - 52) ≤ (2 : ℚ) ^ Int.log 2 |q| :=
    zpow_le_zpow_right₀ (by norm_num) (by omega)
  exact le_trans h2 (by exact_mod_cast h1)

theorem roundDouble_pos {q : ℚ} (h : 0 < q) : 0 < roundDouble q := by
  have hne : q ≠ 0 := ne_of_gt h
  have hu : (0 : ℚ) < 2 ^ (Int.log 2 |q| - 52) := zpow_pos (by norm_num) _
  have hle : (2 : ℚ) ^ (Int.log 2 |q| - 52) ≤ q :=
    (ulp_le_abs hne).trans (le_of_eq (abs_of_pos h))
  have h1 : 1 ≤ q / 2 ^ (Int.log 2 |q| - 52) := (one_le_div hu).mpr hle
  have h2 := roundHalfEven_pos h1
  rw [roundDouble, if_neg hne]
  have : (0 : ℚ) < (roundHalfEven (q / 2 ^ (Int.log 2 |q| - 52)) : ℚ) := by
    exact_mod_cast (by omega : 0 < roundHalfEven (q / 2 ^ (Int.log 2 |q| - 52)))
  exact mul_pos this hu

theorem roundDouble_neg {q : ℚ} (h : q < 0) : roundDouble q < 0 := by
  have hne : q ≠ 0 := ne_of_lt h
  have hu : (0 : ℚ) < 2 ^ (Int.log 2 |q| - 52) := zpow_pos (by norm_num) _
  have hle : (2 : ℚ) ^ (Int.log 2 |q| - 52) ≤ -q :=
    (ulp_le_abs hne).trans (le_of_eq (abs_of_neg h))
  have h1 : q / 2 ^ (Int.log 2 |q| - 52) ≤ -1 := by
    rw [div_le_iff₀ hu]; linarith
  have h2 := roundHalfEven_neg h1
  rw [roundDouble, if_neg hne]
  have : (roundHalfEven (q / 2 ^ (Int.log 2 |q| - 52)) : ℚ) < 0 := by
    exact_mod_cast (by omega : roundHalfEven (q / 2 ^ (Int.log 2 |q| - 52)) < 0)
  exact mul_neg_of_neg_of_pos this hu

theorem roundDouble_zero : roundDouble 0 = 0 := by simp [roundDouble]

theorem roundDouble_nonpos_iff (q : ℚ) : roundDouble q ≤ 0 ↔ q ≤ 0 := by
  constructor
  · intro h
    by_contra hc
    exact absurd (roundDouble_pos (not_le.mp hc)) (not_lt.mpr h)
  · intro h
    rcases eq_or_lt_of_le h with h0 | h0
    · rw [h0, roundDouble_zero]
    · exact le_of_lt (roundDouble_neg h0)


theorem log_eq_of_bounds {q : ℚ} (e : ℤ) (h1 : (2 : ℚ) ^ e ≤ |q|) (h2 : |q| < 2 ^ (e + 1)) :
    Int.log 2 |q| = e := by
  have hq : 0 < |q| := lt_of_lt_of_le (zpow_pos (by norm_num) _) h1
  have a : e ≤ Int.log 2 |q| :=
    (Int.zpow_le_iff_le_log (by norm_num) hq).mp (by exact_mod_cast h1)
  have b : Int.log 2 |q| < e + 1 :=
    (Int.lt_zpow_iff_log_lt (by norm_num) hq).mp (by exact_mod_cast h2)
  omega

theorem roundDouble_of_bounds {q : ℚ} (e : ℤ) (h1 : (2 : ℚ) ^ e ≤ |q|)
    (h2 : |q| < 2 ^ (e + 1)) :
    roundDouble q = (roundHalfEven (q / 2 ^ (e - 52)) : ℚ) * 2 ^ (e - 52) := by
  have hq : 0 < |q| := lt_of_lt_of_le (zpow_pos (by norm_num) _) h1
  rw [roundDouble, if_neg (abs_pos.mp hq), log_eq_of_bounds e h1 h2]

theorem roundHalfEven_intCast (n : ℤ) : roundHalfEven (n : ℚ) = n := by
  simp [roundHalfEven]

theorem roundDouble_intCast (n : ℤ) (h : |n| < 2 ^ 53) : roundDouble (n : ℚ) = n := by
  rcases eq_or_ne n 0 with h0 | h0
  · subst h0; simp [roundDouble]
  have hq : (0 : ℚ) < |(n : ℚ)| := abs_pos.mpr (by exact_mod_cast h0)
  have hlo : (0 : ℤ) ≤ Int.log 2 |(n : ℚ)| := by
    apply (Int.zpow_le_iff_le_log (by norm_num) hq).mp
    have : (1 : ℤ) ≤ |n| := Int.one_le_abs h0
    have h1 : ((1 : ℤ) : ℚ) ≤ ((|n| : ℤ) : ℚ) := by exact_mod_cast this
    simpa using h1
  have hhi : Int.log 2 |(n : ℚ)| < 53 := by
    apply (Int.lt_zpow_iff_log_lt (by norm_num) hq).mp
    have h1 : ((|n| : ℤ) : ℚ) < (((2 : ℤ) ^ 53 : ℤ) : ℚ) := by exact_mod_cast h
    push_cast at h1
    exact lt_of_lt_of_le h1 (by norm_num)
  obtain ⟨k, hk⟩ : ∃ k : ℕ, Int.log 2 |(n : ℚ)| - 52 = -(k : ℤ) :=
    ⟨(52 - Int.log 2 |(n : ℚ)|).toNat, by omega⟩
  have hne : (n : ℚ) ≠ 0 := by exact_mod_cast h0
  rw [roundDouble, if_neg hne, hk, zpow_neg, zpow_natCast, div_inv_eq_mul]
  have : (n : ℚ) * 2 ^ k = ((n * 2 ^ k : ℤ) : ℚ) := by push_cast; ring
  rw [this, roundHalfEven_intCast]
  push_cast
  field_simp

/-! ## Lemmas on destroy and kill -/

theorem destroy_fst (o : EngineObject) (w : World) :
    (o.destroy w).1 =
      if o.destroyed then o
      else { o with destroyed := true, children := o.children.map Child.destroy } := by
  unfold EngineObject.destroy
  split <;> rfl

theorem destroy_snd (o : EngineObject) (w : World) :
    (o.destroy w).2 = w.log (Event.destroy o.id) := by
  unfold EngineObject.destroy
  split <;> rfl

theorem destroy_health (o : EngineObject) (w : World) :
    (o.destroy w).1.health = o.health := by
  rw [destroy_fst]; split <;> rfl

theorem destroy_destroyed (o : EngineObject) (w : World) :
    (o.destroy w).1.destroyed = true := by
  rw [destroy_fst]; split
  · assumption
  · rfl

theorem kill_health (o : EngineObject) (w : World) (s : Option Nat) :
    (o.kill w s).1.health = o.health := by
  unfold EngineObject.kill
  split
  · unfold Crate.kill; dsimp only; split
    · rfl
    · exact destroy_health _ _
  · unfold Enemy.kill; dsimp only; split
    · rfl
    · exact destroy_health _ _
  · exact destroy_health _ _

/-! ## GameObject.damage -/

/-- C1 as stated fails: the sample crate of health 5 damaged by `2⁻⁶⁰` (health and
damage are doubles) keeps health 5, since `5 - 2⁻⁶⁰` rounds to 5, and `damage` returns 0;
the claim gives the returned amount `min(d, h) = 2⁻⁶⁰` and the health `5 - 2⁻⁶⁰`. -/
theorem damage_rounds_small_amount_away :
    0 < crate5.health ∧ (0 : ℚ) ≤ 1 / 2 ^ 60 ∧
    roundDouble crate5.health = crate5.health ∧
    roundDouble (1 / 2 ^ 60) = 1 / 2 ^ 60 ∧
    (GameObject.damage crate5 world0 (1 / 2 ^ 60) none).1 = 0 ∧
    (GameObject.damage crate5 world0 (1 / 2 ^ 60) none).1 ≠ min (1 / 2 ^ 60) crate5.health ∧
    (GameObject.damage crate5 world0 (1 / 2 ^ 60) none).2.1.health = 5 ∧
    (GameObject.damage crate5 world0 (1 / 2 ^ 60) none).2.1.health
      ≠ max (crate5.health - 1 / 2 ^ 60) 0 := by
  have r5 : roundDouble 5 = 5 := by
    have := roundDouble_intCast 5 (by norm_num)
    simpa using this
  have rd : roundDouble (1 / 2 ^ 60) = 1 / 2 ^ 60 := by
    rw [roundDouble_of_bounds (-60) (by norm_num [abs_of_pos]) (by norm_num [abs_of_pos])]
    have : (1 : ℚ) / 2 ^ 60 / 2 ^ ((-60 : ℤ) - 52) = ((2 ^ 52 : ℤ) : ℚ) := by norm_num
    rw [this, roundHalfEven_intCast]
    norm_num
  have rs : roundDouble (5 - 1 / 2 ^ 60) = 5 := by
    rw [roundDouble_of_bounds 2 (by norm_num [abs_of_pos]) (by norm_num [abs_of_pos])]
    have hf : ⌊((5 : ℚ) - 1 / 2 ^ 60) / 2 ^ ((2 : ℤ) - 52)⌋ = 5 * 2 ^ 50 - 1 := by
      rw [Int.floor_eq_iff]; constructor <;> norm_num
    have : roundHalfEven (((5 : ℚ) - 1 / 2 ^ 60) / 2 ^ ((2 : ℤ) - 52)) = 5 * 2 ^ 50 := by
      unfold roundHalfEven
      rw [hf]
      norm_num
    rw [this]
    norm_num
  have hd : GameObject.damage crate5 world0 (1 / 2 ^ 60) none
      = (0, { crate5 with damageTimer := ⟨some 0⟩ }, world0) := by
    have rs2 : roundDouble (5 - (2 ^ 60)⁻¹) = 5 := by rw [← one_div]; exact rs
    simp [GameObject.damage, GameObject.isDead, ASSERT, crate5, world0, rs2,
      roundDouble_zero, Timer.set]
  rw [hd]
  refine ⟨by norm_num [crate5], by norm_num, by simpa [crate5] using r5, rd, rfl, ?_, rfl, ?_⟩
  · norm_num [crate5]
  · norm_num [crate5]

/-- C1 (amended): for a live object with health `h > 0` and damage `d ≥ 0`, both doubles,
`damage(d)` leaves the health at `max(h ⊖ d, 0)` and returns `h ⊖` that new health, where
`⊖` is the subtraction rounded to a double; the new health is never negative.  Whenever
`h - d` is itself a double, or `d ≥ h`, it returns `min(d, h)`, leaves the health at
`max(h - d, 0)`, and the returned amount plus the new health is `h`. -/
theorem damage_live_amount (o : EngineObject) (w : World) (d : ℚ) (src : Option Nat)
    (hh : 0 < o.health) (hd : 0 ≤ d)
    (hH : roundDouble o.health = o.health) (hD : roundDouble d = d) :
    (GameObject.damage o w d src).2.1.health = max (roundDouble (o.health - d)) 0 ∧
    (GameObject.damage o w d src).1
      = roundDouble (o.health - max (roundDouble (o.health - d)) 0) ∧
    0 ≤ (GameObject.damage o w d src).2.1.health ∧
    ((roundDouble (o.health - d) = o.health - d ∨ o.health ≤ d) →
      (GameObject.damage o w d src).1 = min d o.health ∧
      (GameObject.damage o w d src).2.1.health = max (o.health - d) 0 ∧
      (GameObject.damage o w d src).1 + (GameObject.damage o w d src).2.1.health
        = o.health ∧
      0 ≤ (GameObject.damage o w d src).1) := by
  have hne : GameObject.isDead o = false := by
    simp [GameObject.isDead, ne_of_gt hh]
  have key : (GameObject.damage o w d src).1
        = roundDouble (o.health - max (roundDouble (o.health - d)) 0) ∧
      (GameObject.damage o w d src).2.1.health = max (roundDouble (o.health - d)) 0 := by
    unfold GameObject.damage
    simp only [hne, Bool.false_eq_true, if_false]
    split
    · simp [kill_health]
    · simp
  obtain ⟨h1, h2⟩ := key
  rw [h1, h2]
  refine ⟨rfl, rfl, le_max_right _ _, ?_⟩
  intro hex
  have hm : max (roundDouble (o.health - d)) 0 = max (o.health - d) 0 := by
    rcases hex with he | he
    · rw [he]
    · have h0 : o.health - d ≤ 0 := by linarith
      rw [max_eq_right h0, max_eq_right ((roundDouble_nonpos_iff _).mpr h0)]
  rw [hm]
  have hr : roundDouble (o.health - max (o.health - d) 0) = min d o.health := by
    rcases le_total (o.health - d) 0 with h | h
    · rw [max_eq_right h, min_eq_right (by linarith), sub_zero, hH]
    · rw [max_eq_left h, min_eq_left (by linarith), sub_sub_cancel, hD]
  rw [hr]
  refine ⟨rfl, rfl, ?_, le_min hd (le_of_lt hh)⟩
  rcases le_total (o.health - d) 0 with h | h
  · rw [max_eq_right h, min_eq_right (by linarith)]; ring
  · rw [max_eq_left h, min_eq_left (by linarith)]; ring

/-- Witness for C1 (amended): the sample crate of health 5 damaged by 2. -/
theorem damage_live_amount_witness :
    (GameObject.damage crate5 world0 2 none).1 = min 2 crate5.health ∧
    (GameObject.damage crate5 world0 2 none).2.1.health = max (crate5.health - 2) 0 ∧
    (GameObject.damage crate5 world0 2 none).1
      + (GameObject.damage crate5 world0 2 none).2.1.health = crate5.health ∧
    0 ≤ (GameObject.damage crate5 world0 2 none).1 :=
  (damage_live_amount crate5 world0 2 none (by norm_num [crate5]) (by norm_num)
    (by simpa [crate5] using roundDouble_intCast 5 (by norm_num))
    (by simpa using roundDouble_intCast 2 (by norm_num))).2.2.2
    (Or.inl (by
      have h3 : crate5.health - 2 = ((3 : ℤ) : ℚ) := by norm_num [crate5]
      rw [h3]
      exact roundDouble_intCast 3 (by norm_num)))

/-- C2: `damage` on a dead object (health 0) returns 0 and changes nothing: the object
(health, damage timer, children) and the world (trace: no `kill`, no `destroy`) are
returned as they were, for every damage `d ≥ 0`. -/
theorem damage_dead_noop (o : EngineObject) (w : World) (d : ℚ) (src : Option Nat)
    (hdead : GameObject.isDead o = true) (hd : 0 ≤ d) :
    GameObject.damage o w d src = (0, o, w) := by
  unfold GameObject.damage
  simp [hdead, ASSERT, hd]

/-- Witness for C2: the dead sample crate damaged by 3. -/
theorem damage_dead_noop_witness :
    GameObject.isDead deadCrate = true ∧ (0 : ℚ) ≤ 3 ∧
    GameObject.damage deadCrate world0 3 none = (0, deadCrate, world0) :=
  ⟨by simp [GameObject.isDead, deadCrate], by norm_num,
    damage_dead_noop deadCrate world0 3 none (by simp [GameObject.isDead, deadCrate])
      (by norm_num)⟩

/-! ## Crates -/

/-- C3 as stated fails: damage 5 on the sample crate of health 5 leaves `h - d = 0`,
which is not below zero, and yet `kill` and `destroy` are invoked once each and the
crate ends destroyed. -/
theorem crate_killed_at_zero_health :
    ¬ (crate5.health - 5 < 0) ∧
    (GameObject.damage crate5 world0 5 none).2.2.killCalls crate5.id
      = world0.killCalls crate5.id + 1 ∧
    (GameObject.damage crate5 world0 5 none).2.2.destroyCalls crate5.id
      = world0.destroyCalls crate5.id + 1 ∧
    (GameObject.damage crate5 world0 5 none).2.1.destroyed = true := by
  simp [GameObject.damage, GameObject.isDead, ASSERT, EngineObject.kill, Crate.kill,
    EngineObject.destroy, World.log, World.killCalls, World.destroyCalls, crate5, world0,
    roundDouble_zero]

/-- C3 (amended): for a live crate with health `h > 0` and damage `d ≥ 0`, `damage(d)`
invokes `kill` if and only if `h - d ≤ 0`, and `destroy` is called through it (the
`isDestroyed` property being unset), after which the crate is destroyed.  Damage that
leaves `h - d > 0` invokes neither: the world, trace included, and the `destroyed` flag
are unchanged. -/
theorem crate_damage_kill_iff (o : EngineObject) (w : World) (d : ℚ) (src : Option Nat)
    (hk : o.kind = Kind.crate) (hh : 0 < o.health) (hd : 0 ≤ d) :
    ((GameObject.damage o w d src).2.2.killCalls o.id = w.killCalls o.id + 1
      ↔ o.health - d ≤ 0) ∧
    ((GameObject.damage o w d src).2.2.destroyCalls o.id = w.destroyCalls o.id + 1
      ↔ (o.health - d ≤ 0 ∧ o.isDestroyed = false)) ∧
    (o.health - d ≤ 0 → o.isDestroyed = false →
      (GameObject.damage o w d src).2.1.destroyed = true) ∧
    (0 < o.health - d →
      (GameObject.damage o w d src).2.2 = w ∧
      (GameObject.damage o w d src).2.1.destroyed = o.destroyed) := by
  have hne : GameObject.isDead o = false := by
    simp [GameObject.isDead, ne_of_gt hh]
  rcases le_or_lt (o.health - d) 0 with h | h
  · have hmax : max (roundDouble (o.health - d)) 0 = 0 :=
      max_eq_right ((roundDouble_nonpos_iff _).mpr h)
    have hnot : ¬ (0 < o.health - d) := not_lt.mpr h
    cases hflag : o.isDestroyed <;>
      simp [GameObject.damage, hne, ASSERT, hd, hmax, EngineObject.kill, hk, Crate.kill,
        hflag, destroy_snd, destroy_destroyed, World.log, World.killCalls,
        World.destroyCalls, h, hnot]
  · have hmax : max (roundDouble (o.health - d)) 0 = roundDouble (o.health - d) :=
      max_eq_left (le_of_lt (roundDouble_pos h))
    have hnot : ¬ (o.health - d ≤ 0) := not_le.mpr h
    have hne0 : roundDouble (o.health - d) ≠ 0 := ne_of_gt (roundDouble_pos h)
    simp [GameObject.damage, hne, ASSERT, hd, hmax, hne0, h, hnot]

/-- Witness for C3 (amended): the sample crate of health 5 damaged by 5. -/
theorem crate_damage_kill_iff_witness :
    ((GameObject.damage crate5 world0 5 none).2.2.killCalls crate5.id
        = world0.killCalls crate5.id + 1 ↔ crate5.health - 5 ≤ 0) ∧
    ((GameObject.damage crate5 world0 5 none).2.2.destroyCalls crate5.id
        = world0.destroyCalls crate5.id + 1
      ↔ (crate5.health - 5 ≤ 0 ∧ crate5.isDestroyed = false)) ∧
    (crate5.health - 5 ≤ 0 → crate5.isDestroyed = false →
      (GameObject.damage crate5 world0 5 none).2.1.destroyed = true) ∧
    (0 < crate5.health - 5 →
      (GameObject.damage crate5 world0 5 none).2.2 = world0 ∧
      (GameObject.damage crate5 world0 5 none).2.1.destroyed = crate5.destroyed) :=
  crate_damage_kill_iff crate5 world0 5 none rfl (by norm_num [crate5]) (by norm_num)

/-! ## Bullets -/

theorem bullet_kill_of_destroyed (b : Bullet) (w : World) (h : b.destroyed = true) :
    b.kill w = (b, w.log (Event.kill b.id)) := by
  simp [Bullet.kill, h]

theorem bullet_kill_of_live (b : Bullet) (w : World) (h : b.destroyed = false) :
    (b.kill w).1.destroyed = true ∧ (b.kill w).1.id = b.id ∧
    (b.kill w).2.destroyCalls b.id = w.destroyCalls b.id + 1 ∧
    (b.kill w).2.emitters = w.emitters + 1 := by
  simp [Bullet.kill, h, EngineObject.destroy, World.log, World.destroyCalls,
    World.emitters, Event.isParticleEmitter]

theorem bullet_killTimes_of_destroyed (n : Nat) (b : Bullet) (w : World)
    (h : b.destroyed = true) :
    (Bullet.killTimes n b w).1 = b ∧
    (Bullet.killTimes n b w).2.destroyCalls b.id = w.destroyCalls b.id ∧
    (Bullet.killTimes n b w).2.emitters = w.emitters := by
  induction n generalizing w with
  | zero => simp [Bullet.killTimes]
  | succ n ih =>
    have hk := bullet_kill_of_destroyed b w h
    simp only [Bullet.killTimes, hk]
    obtain ⟨h1, h2, h3⟩ := ih (w.log (Event.kill b.id))
    refine ⟨h1, ?_, ?_⟩
    · rw [h2]; simp [World.log, World.destroyCalls]
    · rw [h3]; simp [World.log, World.emitters, Event.isParticleEmitter]

/-- C4: `Bullet.kill` on a bullet whose `destroyed` flag is set returns without calling
`destroy` and without creating a spark emitter (only the entry into `kill` is traced);
hence `n ≥ 1` calls of `kill` on a bullet in flight call `destroy` exactly once and
create exactly one spark emitter. -/
theorem bullet_kill_idempotent (b : Bullet) (w : World) (n : Nat) (hn : 0 < n)
    (hb : b.destroyed = false) :
    (∀ (c : Bullet) (v : World), c.destroyed = true →
      c.kill v = (c, v.log (Event.kill c.id)) ∧
      (c.kill v).2.destroyCalls c.id = v.destroyCalls c.id ∧
      (c.kill v).2.emitters = v.emitters) ∧
    (Bullet.killTimes n b w).2.destroyCalls b.id = w.destroyCalls b.id + 1 ∧
    (Bullet.killTimes n b w).2.emitters = w.emitters + 1 ∧
    (Bullet.killTimes n b w).1.destroyed = true := by
  refine ⟨?_, ?_⟩
  · intro c v hc
    rw [bullet_kill_of_destroyed c v hc]
    simp [World.log, World.destroyCalls, World.emitters, Event.isParticleEmitter]
  · obtain ⟨m, rfl⟩ : ∃ m, n = m + 1 := ⟨n - 1, by omega⟩
    obtain ⟨h1, h2, h3, h4⟩ := bullet_kill_of_live b w hb
    obtain ⟨k1, k2, k3⟩ := bullet_killTimes_of_destroyed m (b.kill w).1 (b.kill w).2 h1
    simp only [Bullet.killTimes]
    rw [h2] at k2
    rw [k1]
    exact ⟨by rw [k2, h3], by rw [k3, h4], h1⟩

/-- Witness for C4: three `kill` calls on the sample bullet. -/
theorem bullet_kill_idempotent_witness :
    (∀ (c : Bullet) (v : World), c.destroyed = true →
      c.kill v = (c, v.log (Event.kill c.id)) ∧
      (c.kill v).2.destroyCalls c.id = v.destroyCalls c.id ∧
      (c.kill v).2.emitters = v.emitters) ∧
    (Bullet.killTimes 3 bullet0 world0).2.destroyCalls bullet0.id
      = world0.destroyCalls bullet0.id + 1 ∧
    (Bullet.killTimes 3 bullet0 world0).2.emitters = world0.emitters + 1 ∧
    (Bullet.killTimes 3 bullet0 world0).1.destroyed = true :=
  bullet_kill_idempotent bullet0 world0 3 (by decide) rfl

theorem bullet_kill_destroyed (b : Bullet) (w : World) : (b.kill w).1.destroyed = true := by
  cases h : b.destroyed
  · exact (bullet_kill_of_live b w h).1
  · rw [bullet_kill_of_destroyed b w h]; exact h

theorem bullet_kill_trace (b : Bullet) (w : World) :
    ∃ t, (b.kill w).2.trace = w.trace ++ Event.kill b.id :: t := by
  cases h : b.destroyed
  · exact ⟨[Event.destroy b.id, Event.particleEmitter b.pos], by
      simp [Bullet.kill, h, EngineObject.destroy, World.log]⟩
  · exact ⟨[], by simp [Bullet.kill, h, World.log]⟩

/-- C6: `Bullet.collideWithTile` returns 0 and has no effect for every tile code
`data ≤ 0`; for every `data > 0` it calls `destroyTile` at the given position, then
kills the bullet (which ends destroyed), and returns 1. -/
theorem bullet_collideWithTile_handled (b : Bullet) (data : Int) (pos : Vec2) (w : World) :
    (data ≤ 0 → b.collideWithTile data pos w = (0, b, w)) ∧
    (0 < data →
      (b.collideWithTile data pos w).1 = 1 ∧
      (b.collideWithTile data pos w).2 = b.kill (w.log (Event.destroyTile pos)) ∧
      (b.collideWithTile data pos w).2.1.destroyed = true ∧
      (∃ t, (b.collideWithTile data pos w).2.2.trace
        = w.trace ++ Event.destroyTile pos :: Event.kill b.id :: t)) := by
  constructor
  · intro h
    simp [Bullet.collideWithTile, h]
  · intro h
    have hnot : ¬ data ≤ 0 := not_le.mpr h
    have he : b.collideWithTile data pos w
        = (1, b.kill (w.log (Event.destroyTile pos))) := by
      simp [Bullet.collideWithTile, hnot]
    rw [he]
    refine ⟨rfl, rfl, bullet_kill_destroyed _ _, ?_⟩
    obtain ⟨t, ht⟩ := bullet_kill_trace b (w.log (Event.destroyTile pos))
    refine ⟨t, ?_⟩
    rw [ht]
    simp [World.log]

/-- Witness for C6: the sample bullet meets an empty cell (code 0) and a solid one
(code 1). -/
theorem bullet_collideWithTile_handled_witness :
    bullet0.collideWithTile 0 ⟨2, 3⟩ world0 = (0, bullet0, world0) ∧
    (bullet0.collideWithTile 1 ⟨2, 3⟩ world0).1 = 1 ∧
    (bullet0.collideWithTile 1 ⟨2, 3⟩ world0).2.1.destroyed = true :=
  ⟨(bullet_collideWithTile_handled bullet0 0 ⟨2, 3⟩ world0).1 (by decide),
    ((bullet_collideWithTile_handled bullet0 1 ⟨2, 3⟩ world0).2 (by decide)).1,
    ((bullet_collideWithTile_handled bullet0 1 ⟨2, 3⟩ world0).2 (by decide)).2.2.1⟩

/-- C7: `Bullet.collideWithObject(o)` returns 1 and kills the bullet, which ends
destroyed.  When `o` is a game object other than the attacker, `o` is first damaged by
`bullet.damage` with the bullet as damaging object and then receives `applyForce` of the
velocity scaled by .1.  Otherwise (the attacker, or not a game object) `o` is returned
unchanged, health and velocity included, and the world only sees the bullet being
killed. -/
theorem bullet_collideWithObject_damages
    (applyForce : EngineObject → Vec2 → EngineObject) (b : Bullet) (o : EngineObject)
    (w : World) :
    (Bullet.collideWithObject applyForce b o w).1 = 1 ∧
    (Bullet.collideWithObject applyForce b o w).2.1.destroyed = true ∧
    ((o.isGameObject = true ∧ some o.id ≠ b.attacker) →
      (Bullet.collideWithObject applyForce b o w).2.2.1
        = applyForce (GameObject.damage o w b.damage (some b.id)).2.1
            (b.velocity.scale (1 / 10)) ∧
      ((Bullet.collideWithObject applyForce b o w).2.1,
        (Bullet.collideWithObject applyForce b o w).2.2.2)
        = b.kill (GameObject.damage o w b.damage (some b.id)).2.2) ∧
    (¬ (o.isGameObject = true ∧ some o.id ≠ b.attacker) →
      (Bullet.collideWithObject applyForce b o w).2.2.1 = o ∧
      ((Bullet.collideWithObject applyForce b o w).2.1,
        (Bullet.collideWithObject applyForce b o w).2.2.2) = b.kill w) := by
  refine ⟨rfl, ?_, ?_, ?_⟩
  · simp only [Bullet.collideWithObject]
    exact bullet_kill_destroyed _ _
  · intro h
    have hg : (o.isGameObject && some o.id != b.attacker) = true := by
      simp [h.1, h.2]
    simp [Bullet.collideWithObject, hg]
  · intro h
    have hg : (o.isGameObject && some o.id != b.attacker) = false := by
      rw [Bool.eq_false_iff]
      intro hc
      apply h
      simpa using hc
    simp [Bullet.collideWithObject, hg]

/-! ## Killing twice -/

/-- C5 fails on the code: after `destroy()` has set the `destroyed` flag of the sample
enemy, a further `Enemy.kill` still raises the score, plays the sound, spawns debris and
calls `destroy` again; likewise a further `Crate.kill` on the destroyed sample crate
plays the sound, spawns debris and calls `destroy` again.  Both methods test
`isDestroyed`, which `destroy` does not set. -/
theorem kill_after_destroy_repeats :
    (enemy5.destroy world0).1.destroyed = true ∧
    (Enemy.kill (enemy5.destroy world0).1 (enemy5.destroy world0).2).2.score
      = (enemy5.destroy world0).2.score + 1 ∧
    (Enemy.kill (enemy5.destroy world0).1 (enemy5.destroy world0).2).2.trace
      = (enemy5.destroy world0).2.trace ++
        [Event.kill 2, Event.playSound Sound.sound_killEnemy zeroVec,
          Event.makeDebris zeroVec white (some 300), Event.destroy 2] ∧
    (crate5.destroy world0).1.destroyed = true ∧
    (Crate.kill (crate5.destroy world0).1 (crate5.destroy world0).2).2.trace
      = (crate5.destroy world0).2.trace ++
        [Event.kill 1, Event.playSound Sound.sound_destroyObject zeroVec,
          Event.makeDebris zeroVec white none, Event.destroy 1] := by
  simp [Enemy.kill, Crate.kill, EngineObject.destroy, World.log, enemy5, crate5, world0]

/-! ## GameObject.update -/

theorem kill_trace (o : EngineObject) (w : World) (s : Option Nat) :
    ∃ t, (o.kill w s).2.trace = w.trace ++ Event.kill o.id :: t ∧
      t.count (Event.kill o.id) = 0 := by
  unfold EngineObject.kill
  split
  · cases h : o.isDestroyed
    · exact ⟨_, by simp [Crate.kill, h, destroy_snd, World.log]; rfl, by simp⟩
    · exact ⟨[], by simp [Crate.kill, h, World.log], by simp⟩
  · cases h : o.isDestroyed
    · exact ⟨_, by simp [Enemy.kill, h, destroy_snd, World.log]; rfl, by simp⟩
    · exact ⟨[], by simp [Enemy.kill, h, World.log], by simp⟩
  · exact ⟨[Event.destroy o.id], by simp [GameObject.kill, destroy_snd, World.log],
      by simp⟩

theorem flash_fields (percent : ℚ → ℚ → ℚ → ℚ) (o : EngineObject) (w : World) :
    (GameObject.flash percent o w).health = o.health ∧
    (GameObject.flash percent o w).pos = o.pos ∧
    (GameObject.flash percent o w).id = o.id ∧
    (GameObject.flash percent o w).destroyed = o.destroyed := by
  unfold GameObject.flash
  split <;> simp

/-- C10: in `GameObject.update`, after the base update and the flash block, an object
that is not dead with `pos.y < -9` gets exactly one of `destroy()` (when `warmup` is set:
the trace grows by that one `destroy` entry and by no `kill` entry) or `kill()`
(otherwise: the trace grows by what that one `kill` call produces, one `kill` entry
first); when the object is dead or `pos.y ≥ -9` the check invokes neither and the world
is the one left by the base update. -/
theorem gameObject_update_kill_below_level
    (superUpdate : EngineObject → World → EngineObject × World)
    (percent : ℚ → ℚ → ℚ → ℚ) (o : EngineObject) (w : World) :
    ((GameObject.isDead (superUpdate o w).1 = false ∧ (superUpdate o w).1.pos.y < -9 ∧
        (superUpdate o w).2.warmup = true) →
      GameObject.update superUpdate percent o w
        = (GameObject.flash percent (superUpdate o w).1 (superUpdate o w).2).destroy
            (superUpdate o w).2 ∧
      (GameObject.update superUpdate percent o w).2.trace
        = (superUpdate o w).2.trace ++ [Event.destroy (superUpdate o w).1.id] ∧
      (GameObject.update superUpdate percent o w).1.destroyed = true) ∧
    ((GameObject.isDead (superUpdate o w).1 = false ∧ (superUpdate o w).1.pos.y < -9 ∧
        (superUpdate o w).2.warmup = false) →
      GameObject.update superUpdate percent o w
        = (GameObject.flash percent (superUpdate o w).1 (superUpdate o w).2).kill
            (superUpdate o w).2 none ∧
      (GameObject.update superUpdate percent o w).2.killCalls (superUpdate o w).1.id
        = (superUpdate o w).2.killCalls (superUpdate o w).1.id + 1 ∧
      (∃ t, (GameObject.update superUpdate percent o w).2.trace
        = (superUpdate o w).2.trace ++ Event.kill (superUpdate o w).1.id :: t)) ∧
    ((GameObject.isDead (superUpdate o w).1 = true ∨ -9 ≤ (superUpdate o w).1.pos.y) →
      GameObject.update superUpdate percent o w
        = (GameObject.flash percent (superUpdate o w).1 (superUpdate o w).2,
            (superUpdate o w).2)) := by
  obtain ⟨fh, fp, fi, _⟩ := flash_fields percent (superUpdate o w).1 (superUpdate o w).2
  have fd : GameObject.isDead
      (GameObject.flash percent (superUpdate o w).1 (superUpdate o w).2)
      = GameObject.isDead (superUpdate o w).1 := by
    simp [GameObject.isDead, fh]
  refine ⟨?_, ?_, ?_⟩
  · rintro ⟨hd, hy, hw⟩
    have he : GameObject.update superUpdate percent o w
        = (GameObject.flash percent (superUpdate o w).1 (superUpdate o w).2).destroy
            (superUpdate o w).2 := by
      simp [GameObject.update, fd, fp, hd, hy, hw]
    rw [he]
    refine ⟨rfl, ?_, destroy_destroyed _ _⟩
    rw [destroy_snd, fi]
    rfl
  · rintro ⟨hd, hy, hw⟩
    have he : GameObject.update superUpdate percent o w
        = (GameObject.flash percent (superUpdate o w).1 (superUpdate o w).2).kill
            (superUpdate o w).2 none := by
      simp [GameObject.update, fd, fp, hd, hy, hw]
    rw [he]
    obtain ⟨t, ht, hc⟩ := kill_trace
      (GameObject.flash percent (superUpdate o w).1 (superUpdate o w).2)
      (superUpdate o w).2 none
    rw [fi] at ht hc
    refine ⟨rfl, ?_, t, ht⟩
    simp [World.killCalls, ht, hc]
  · intro h
    rcases h with hd | hy
    · simp [GameObject.update, fd, hd]
    · have hnot : ¬ (superUpdate o w).1.pos.y < -9 := not_lt.mpr hy
      simp [GameObject.update, fp, hnot]

/-- Witness for C10: outside warmup the falling sample crate reaches `y = -10` and is
killed once. -/
theorem gameObject_update_kill_below_level_witness :
    (GameObject.update moveByVelocity percentClamped fallingCrate world0).2.killCalls
        (moveByVelocity fallingCrate world0).1.id
      = (moveByVelocity fallingCrate world0).2.killCalls
          (moveByVelocity fallingCrate world0).1.id + 1 :=
  ((gameObject_update_kill_below_level moveByVelocity percentClamped fallingCrate
      world0).2.1
    ⟨by simp [GameObject.isDead, moveByVelocity, fallingCrate, crate5],
      by norm_num [moveByVelocity, fallingCrate, Vec2.add],
      by simp [moveByVelocity, world0]⟩).2.1

/-! ## debugRender -/

theorem frame_refl (st : DebugState) : DebugState.Frame st st :=
  ⟨rfl, rfl, rfl, rfl, List.prefix_refl _⟩

theorem frame_trans {a b c : DebugState} (h1 : DebugState.Frame a b)
    (h2 : DebugState.Frame b c) : DebugState.Frame a c :=
  ⟨h2.1.trans h1.1, h2.2.1.trans h1.2.1, h2.2.2.1.trans h1.2.2.1,
    h2.2.2.2.1.trans h1.2.2.2.1, h1.2.2.2.2.trans h2.2.2.2.2⟩

theorem frame_call (env : DebugEnv) (hro : ∀ c h, env.effect c h = h) (st : DebugState)
    (c : EngineCall) : DebugState.Frame st (st.call env c) := by
  simp [DebugState.Frame, DebugState.call, hro]

theorem frame_newVec2 (st : DebugState) (v : Vec2) : DebugState.Frame st (st.newVec2 v).2 := by
  simp [DebugState.Frame, DebugState.newVec2]

theorem set_append_singleton (l : List Vec2) (a b : Vec2) :
    (l ++ [a]).set l.length b = l ++ [b] := by
  rw [List.set_append_right _ _ (le_refl _)]
  simp

theorem getD_append_singleton (l : List Vec2) (a d : Vec2) :
    (l ++ [a]).getD l.length d = a := by
  rw [List.getD_append_right _ _ _ _ (le_refl _)]
  simp

theorem read_of_extends {a b : Heap} (h : a.cells <+: b.cells) {r : Ref}
    (hr : r < a.cells.length) : b.read r = a.read r := by
  obtain ⟨t, ht⟩ := h
  unfold Heap.read
  rw [← ht, List.getD_append _ _ _ _ hr]

theorem load_of_extends {a b : Heap} (h : a.cells <+: b.cells) (o : StoredObject)
    (ho : o.allocated a) : o.load b = o.load a := by
  obtain ⟨h1, h2, h3, h4⟩ := ho
  unfold StoredObject.load
  rw [read_of_extends h h1, read_of_extends h h2, read_of_extends h h3]
  congr 1
  cases hp : o.parent with
  | none => rfl
  | some p =>
    have := h4 p (by rw [hp]; exact rfl)
    simp [read_of_extends h this]

theorem showObject_heap (env : DebugEnv) (hro : ∀ c h, env.effect c h = h)
    (st : DebugState) (o : StoredObject) (hc : o.canvas = false) :
    (debugRender.showObject env st o).heap.cells
      = st.heap.cells ++
        [⟨max (st.heap.read o.size).x (2 / 10), max (st.heap.read o.size).y (2 / 10)⟩,
         (⟨max (st.heap.read o.size).x (2 / 10), max (st.heap.read o.size).y (2 / 10)⟩
            : Vec2).scale (8 / 10)] := by
  cases hp : o.parent <;>
    simp [debugRender.showObject, hc, hp, DebugState.newVec2, DebugState.assign,
      DebugState.call, hro, Heap.read, set_append_singleton, getD_append_singleton,
      Vec2.copy]

theorem showObject_frame (env : DebugEnv) (hro : ∀ c h, env.effect c h = h)
    (st : DebugState) (o : StoredObject) :
    DebugState.Frame st (debugRender.showObject env st o) := by
  cases hc : o.canvas
  · refine ⟨?_, ?_, ?_, ?_, ?_⟩
    · cases hp : o.parent <;>
        simp [debugRender.showObject, hc, hp, DebugState.newVec2, DebugState.assign,
          DebugState.call]
    · cases hp : o.parent <;>
        simp [debugRender.showObject, hc, hp, DebugState.newVec2, DebugState.assign,
          DebugState.call]
    · cases hp : o.parent <;>
        simp [debugRender.showObject, hc, hp, DebugState.newVec2, DebugState.assign,
          DebugState.call]
    · cases hp : o.parent <;>
        simp [debugRender.showObject, hc, hp, DebugState.newVec2, DebugState.assign,
          DebugState.call]
    · rw [showObject_heap env hro st o hc]
      exact List.prefix_append _ _
  · have : debugRender.showObject env st o = st := by simp [debugRender.showObject, hc]
    rw [this]
    exact frame_refl st

theorem showObjects_frame (env : DebugEnv) (hro : ∀ c h, env.effect c h = h)
    (objs : List StoredObject) (st : DebugState) :
    DebugState.Frame st (objs.foldl (debugRender.showObject env) st) := by
  induction objs generalizing st with
  | nil => exact frame_refl st
  | cons o rest ih =>
    rw [List.foldl_cons]
    exact frame_trans (showObject_frame env hro st o) (ih _)

theorem showPick_frame (env : DebugEnv) (hro : ∀ c h, env.effect c h = h)
    (st : DebugState) (best : Option StoredObject) :
    DebugState.Frame st (debugRender.showPick env st best) := by
  cases best with
  | none => exact frame_refl st
  | some b =>
    cases hit : env.tileCollisionRaycast (st.heap.read b.pos) (st.heap.read st.mousePos) <;>
      simp [DebugState.Frame, debugRender.showPick, debugRender.cellOf, DebugState.call,
        DebugState.newVec2, hro, hit]

theorem primitives_frame (env : DebugEnv) (hro : ∀ c h, env.effect c h = h)
    (rs : List DebugPrimitive) (st : DebugState) :
    DebugState.Frame st
      (rs.foldl (fun st r => st.call env (EngineCall.primitive st.overlayContext r)) st) := by
  induction rs generalizing st with
  | nil => exact frame_refl st
  | cons r rest ih =>
    rw [List.foldl_cons]
    exact frame_trans (frame_call env hro st _) (ih _)

theorem overlay_frame (env : DebugEnv) (hro : ∀ c h, env.effect c h = h)
    (st : DebugState) : DebugState.Frame st (debugRender.overlay env st) := by
  unfold debugRender.overlay
  exact frame_trans (showObjects_frame env hro _ st)
    (frame_trans (showPick_frame env hro _ _) (frame_call env hro _ _))

theorem debugRender_frame (env : DebugEnv) (hro : ∀ c h, env.effect c h = h)
    (st : DebugState) : DebugState.Frame st (debugRender env st) := by
  have s1 := frame_call env hro st (EngineCall.glCopyToContext st.mainContext)
  have s2 : ∀ a : DebugState, DebugState.Frame a
      (if a.debugTakeScreenshot then
        { a.call env EngineCall.saveCanvas with debugTakeScreenshot := false }
      else a) := by
    intro a
    split
    · exact frame_call env hro a _
    · exact frame_refl a
  have s3 : ∀ a : DebugState, DebugState.Frame a
      (match a.debugGamepads && a.gamepadsEnable, env.navigatorGamepads with
        | true, some pushed => { a with debugPrimitives := a.debugPrimitives ++ pushed }
        | _, _ => a) := by
    intro a
    split
    · exact ⟨rfl, rfl, rfl, rfl, List.prefix_refl _⟩
    · exact frame_refl a
  have s4 : ∀ a : DebugState, DebugState.Frame a
      (if a.debugOverlay then debugRender.overlay env a else a) := by
    intro a
    split
    · exact overlay_frame env hro a
    · exact frame_refl a
  have s7 : ∀ a : DebugState, DebugState.Frame a
      { a with debugPrimitives :=
          a.debugPrimitives.filter fun r => decide (r.time.get a.time < 0) } :=
    fun a => ⟨rfl, rfl, rfl, rfl, List.prefix_refl _⟩
  unfold debugRender
  exact frame_trans s1 (frame_trans (s2 _) (frame_trans (s3 _) (frame_trans (s4 _)
    (frame_trans (primitives_frame env hro _ _) (frame_trans (frame_call env hro _ _)
      (s7 _))))))

theorem mousePickStored_load (env : DebugEnv) (heap : Heap) (mousePos : Ref)
    (objs : List StoredObject) :
    (debugRender.mousePickStored env heap mousePos objs).map (StoredObject.load heap)
      = debugRender.mousePick env.distanceSquared (heap.read mousePos)
          (objs.map (StoredObject.load heap)) := by
  have key : ∀ (l : List StoredObject) (acc : WithTop ℚ × Option StoredObject),
      ((l.foldl (debugRender.pickStepStored env heap mousePos) acc).1,
        (l.foldl (debugRender.pickStepStored env heap mousePos) acc).2.map
          (StoredObject.load heap))
      = (l.map (StoredObject.load heap)).foldl
          (debugRender.pickStep env.distanceSquared (heap.read mousePos))
          (acc.1, acc.2.map (StoredObject.load heap)) := by
    intro l
    induction l with
    | nil => intro acc; rfl
    | cons o rest ih =>
      intro acc
      rw [List.foldl_cons, List.map_cons, List.foldl_cons, ih]
      congr 1
      unfold debugRender.pickStepStored debugRender.pickStep
      simp only [StoredObject.load]
      split <;> rfl
  have h := congrArg Prod.snd (key objs (⊤, none))
  unfold debugRender.mousePickStored debugRender.mousePick
  exact h

/-- C8: provided the engine calls write to no vector, `debugRender` leaves the list of
engine objects and the mouse reference unchanged and every vector that existed before
with the same components, so each allocated object has the same pos, size, velocity,
angle, parent and collision flags afterwards; the clamp to at least .2 per axis is
applied to a new vector, the one passed to `drawRect`, while the vector behind `o.size`
keeps its components; and `mainContext` has the same value after the mouse pick block
as before it (and after `debugRender` as a whole). -/
theorem debugRender_reads_only (env : DebugEnv) (st : DebugState)
    (hro : ∀ c h, env.effect c h = h) :
    (debugRender env st).engineObjects = st.engineObjects ∧
    (debugRender env st).mousePos = st.mousePos ∧
    (∀ r, r < st.heap.cells.length → (debugRender env st).heap.read r = st.heap.read r) ∧
    (∀ o ∈ st.engineObjects, o.allocated st.heap →
      o.load (debugRender env st).heap = o.load st.heap) ∧
    (debugRender env st).mainContext = st.mainContext ∧
    (∀ best : Option StoredObject,
      (debugRender.showPick env st best).mainContext = st.mainContext) ∧
    (∀ o : StoredObject, o.canvas = false → o.size < st.heap.cells.length →
      EngineCall.drawRect st.mainContext o.pos st.heap.cells.length
          ⟨if o.collideTiles then 1 else 0, if o.collideSolidObjects then 1 else 0,
            if o.isSolid then 1 else 0, if o.parent.isSome then 2 / 10 else 5 / 10⟩
        ∈ (debugRender.showObject env st o).calls ∧
      (debugRender.showObject env st o).heap.read st.heap.cells.length
        = ⟨max (st.heap.read o.size).x (2 / 10), max (st.heap.read o.size).y (2 / 10)⟩ ∧
      (debugRender.showObject env st o).heap.read o.size = st.heap.read o.size) := by
  obtain ⟨f1, f2, f3, _, f5⟩ := debugRender_frame env hro st
  refine ⟨f1, f2, fun r hr => read_of_extends f5 hr, fun o _ ho => load_of_extends f5 o ho, f3,
    fun best => (showPick_frame env hro st best).2.2.1, ?_⟩
  intro o hc hs
  refine ⟨?_, ?_, ?_⟩
  · cases hp : o.parent <;>
      simp [debugRender.showObject, hc, hp, DebugState.newVec2, DebugState.assign,
        DebugState.call]
  · unfold Heap.read
    rw [showObject_heap env hro st o hc]
    rw [List.getD_append_right _ _ _ _ (le_refl _)]
    simp [Heap.read]
  · exact read_of_extends (showObject_frame env hro st o).2.2.2.2 hs

/-- Witness for C8 at the sample state: the objects and `mainContext` come back as they
were, and the vector behind the size of the point-sized child (cell 4) still has its
components. -/
theorem debugRender_reads_only_witness :
    (debugRender sampleEnv sampleState).engineObjects = sampleState.engineObjects ∧
    (debugRender sampleEnv sampleState).mainContext = sampleState.mainContext ∧
    (debugRender sampleEnv sampleState).heap.read 4 = sampleState.heap.read 4 :=
  ⟨(debugRender_reads_only sampleEnv sampleState (fun _ _ => rfl)).1,
    (debugRender_reads_only sampleEnv sampleState (fun _ _ => rfl)).2.2.2.2.1,
    (debugRender_reads_only sampleEnv sampleState (fun _ _ => rfl)).2.2.1 4 (by decide)⟩

theorem pickInv_step (dist : Vec2 → Vec2 → WithTop ℚ) (mousePos : Vec2)
    (l : List EngineObject) (best : WithTop ℚ × Option EngineObject) (a : EngineObject)
    (h : PickInv (fun o => dist mousePos o.pos) l best) :
    PickInv (fun o => dist mousePos o.pos) (l ++ [a])
      (debugRender.pickStep dist mousePos best a) := by
  obtain ⟨bd, bo⟩ := best
  obtain ⟨hn, hs⟩ := h
  unfold debugRender.pickStep
  dsimp only at hn hs ⊢
  by_cases hlt : dist mousePos a.pos < bd
  · rw [if_pos hlt]
    refine ⟨fun hc => by simp at hc, ?_⟩
    intro b hb
    have hba : a = b := by simpa using hb
    subst hba
    refine ⟨rfl, lt_of_lt_of_le hlt le_top, l, [], rfl, ?_, by simp⟩
    intro o ho
    cases hbo : bo with
    | none =>
      have hno := (hn hbo).2 o ho
      exact lt_of_lt_of_le (lt_of_lt_of_le hlt le_top) (not_lt.mp hno)
    | some c =>
      obtain ⟨h1, _, pre, post, hl, hpre, hpost⟩ := hs c hbo
      have hac : dist mousePos a.pos < dist mousePos c.pos := h1 ▸ hlt
      rw [hl] at ho
      rcases List.mem_append.mp ho with hp | hp
      · exact lt_trans hac (hpre o hp)
      · rcases List.mem_cons.mp hp with hp | hp
        · rw [hp]; exact hac
        · exact lt_of_lt_of_le hac (hpost o hp)
  · rw [if_neg hlt]
    refine ⟨?_, ?_⟩
    · intro hbo
      obtain ⟨h1, h2⟩ := hn hbo
      refine ⟨h1, ?_⟩
      intro o ho
      rcases List.mem_append.mp ho with hp | hp
      · exact h2 o hp
      · have : o = a := by simpa using hp
        rw [this, ← h1]; exact hlt
    · intro b hb
      obtain ⟨h1, h2, pre, post, hl, hpre, hpost⟩ := hs b hb
      refine ⟨h1, h2, pre, post ++ [a], by simp [hl], hpre, ?_⟩
      intro o ho
      rcases List.mem_append.mp ho with hp | hp
      · exact hpost o hp
      · have : o = a := by simpa using hp
        rw [this]
        show dist mousePos b.pos ≤ dist mousePos a.pos
        rw [← h1]; exact not_lt.mp hlt

theorem pickInv_foldl (dist : Vec2 → Vec2 → WithTop ℚ) (mousePos : Vec2)
    (l : List EngineObject) :
    PickInv (fun o => dist mousePos o.pos) l
      (l.foldl (debugRender.pickStep dist mousePos) (⊤, none)) := by
  induction l using List.reverseRecOn with
  | nil => exact ⟨fun _ => ⟨rfl, by simp⟩, fun b hb => by simp at hb⟩
  | append_singleton l a ih =>
    rw [List.foldl_append]
    exact pickInv_step dist mousePos l _ a ih

/-- C9: after the mouse pick loop, a defined `bestObject` is an element of
`engineObjects` whose squared distance to `mousePos` is below `Infinity` and minimal
over all engine objects, and it is the first such object in list order (every earlier
object is strictly farther); `bestObject` is undefined exactly when no object has a
squared distance below `Infinity`, in particular when `engineObjects` is empty. -/
theorem mousePick_nearest (dist : Vec2 → Vec2 → WithTop ℚ) (mousePos : Vec2)
    (engineObjects : List EngineObject) :
    (∀ b, debugRender.mousePick dist mousePos engineObjects = some b →
      b ∈ engineObjects ∧
      dist mousePos b.pos < ⊤ ∧
      (∀ o ∈ engineObjects, dist mousePos b.pos ≤ dist mousePos o.pos) ∧
      (∃ pre post, engineObjects = pre ++ b :: post ∧
        ∀ o ∈ pre, dist mousePos b.pos < dist mousePos o.pos)) ∧
    (debugRender.mousePick dist mousePos engineObjects = none ↔
      ∀ o ∈ engineObjects, ¬ dist mousePos o.pos < ⊤) ∧
    (engineObjects = [] → debugRender.mousePick dist mousePos engineObjects = none) := by
  obtain ⟨hn, hs⟩ := pickInv_foldl dist mousePos engineObjects
  refine ⟨?_, ?_, ?_⟩
  · intro b hb
    obtain ⟨_, h2, pre, post, hl, hpre, hpost⟩ := hs b hb
    refine ⟨by rw [hl]; simp, h2, ?_, pre, post, hl, hpre⟩
    intro o ho
    rw [hl] at ho
    rcases List.mem_append.mp ho with hp | hp
    · exact le_of_lt (hpre o hp)
    · rcases List.mem_cons.mp hp with hp | hp
      · rw [hp]
      · exact hpost o hp
  · constructor
    · intro h
      exact (hn h).2
    · intro h
      cases hb : debugRender.mousePick dist mousePos engineObjects with
      | none => rfl
      | some b =>
        obtain ⟨_, h2, pre, post, hl, _, _⟩ := hs b hb
        exact absurd h2 (h b (by rw [hl]; simp))
  · intro h
    rw [h]
    rfl

/-- Witness for C7: the sample bullet, fired by the object with handle 9, hits the
sample enemy, which is damaged and pushed. -/
theorem bullet_collideWithObject_damages_witness :
    (Bullet.collideWithObject pushBy bullet0 enemy5 world0).2.2.1
      = pushBy (GameObject.damage enemy5 world0 bullet0.damage (some bullet0.id)).2.1
          (bullet0.velocity.scale (1 / 10)) :=
  ((bullet_collideWithObject_damages pushBy bullet0 enemy5 world0).2.2.1
    ⟨rfl, by decide⟩).1

/-- Witness for C9: with the mouse at the origin, the pick among crates at (3,0), (1,0)
and (-1,0) is the second one, the first of the two nearest. -/
theorem mousePick_nearest_witness :
    debugRender.mousePick squaredDistance zeroVec
        [crateAt 1 ⟨3, 0⟩, crateAt 2 ⟨1, 0⟩, crateAt 3 ⟨-1, 0⟩] = some (crateAt 2 ⟨1, 0⟩) ∧
    crateAt 2 ⟨1, 0⟩ ∈ [crateAt 1 ⟨3, 0⟩, crateAt 2 ⟨1, 0⟩, crateAt 3 ⟨-1, 0⟩] := by
  have h : debugRender.mousePick squaredDistance zeroVec
      [crateAt 1 ⟨3, 0⟩, crateAt 2 ⟨1, 0⟩, crateAt 3 ⟨-1, 0⟩] = some (crateAt 2 ⟨1, 0⟩) := by
    have d1 : squaredDistance zeroVec ⟨3, 0⟩ = ((9 : ℚ) : WithTop ℚ) := by
      unfold squaredDistance zeroVec; congr 1; norm_num
    have d2 : squaredDistance zeroVec ⟨1, 0⟩ = ((1 : ℚ) : WithTop ℚ) := by
      unfold squaredDistance zeroVec; congr 1; norm_num
    have d3 : squaredDistance zeroVec ⟨-1, 0⟩ = ((1 : ℚ) : WithTop ℚ) := by
      unfold squaredDistance zeroVec; congr 1; norm_num
    have c1 : ((9 : ℚ) : WithTop ℚ) < ⊤ := WithTop.coe_lt_top _
    have c2 : ((1 : ℚ) : WithTop ℚ) < ((9 : ℚ) : WithTop ℚ) := by decide
    have c3 : ¬ ((1 : ℚ) : WithTop ℚ) < ((1 : ℚ) : WithTop ℚ) := lt_irrefl _
    simp only [debugRender.mousePick, List.foldl, debugRender.pickStep, crateAt, d1, d2,
      d3, c1, c2, c3, if_true, if_false]
  exact ⟨h, ((mousePick_nearest squaredDistance zeroVec _).1 _ h).1⟩

end LittleJS
